import Mathlib

/-
Verification of the completion-chunk reduction in
cpp/ycm/ClangCompleter/CompletionData.{h,cpp} (YouCompleteMe / ycmd).

Strings are modelled at the Unicode code-point level as `List Char`
(the placeholder markers are single characters at this level; boost's
erase_all with a one-character pattern is exactly a filter, and
erase_all with the pattern "__" is the left-to-right non-overlapping
removal implemented below).  External collaborators (libclang chunk
accessors, the brief-comment accessor) are modelled as the explicit
inputs of `CompletionData.build`: the chunk tree, the cursor kind and
the brief-comment string.
-/

/-- Completion chunk kinds, mirroring CXCompletionChunkKind as used by the
code.  `Other` stands for any kind value outside the set the code inspects. -/
inductive CXCompletionChunkKind where
  | TypedText
  | Placeholder
  | Optional
  | LeftParen
  | RightParen
  | LeftBracket
  | RightBracket
  | LeftBrace
  | RightBrace
  | LeftAngle
  | RightAngle
  | Comma
  | Colon
  | SemiColon
  | Equal
  | Informative
  | HorizontalSpace
  | ResultType
  | CurrentParameter
  | VerticalSpace
  | Other
deriving DecidableEq, Repr

/-- Cursor kinds inspected by CursorKindToCompletionKind; `OtherKind` stands
for every CXCursorKind the switch does not name. -/
inductive CXCursorKind where
  | StructDecl
  | ClassDecl
  | ClassTemplate
  | EnumDecl
  | UnexposedDecl
  | UnionDecl
  | TypedefDecl
  | FieldDecl
  | FunctionDecl
  | CXXMethod
  | FunctionTemplate
  | ConversionFunction
  | Constructor
  | Destructor
  | VarDecl
  | MacroDefinition
  | ParmDecl
  | Namespace
  | NamespaceAlias
  | OtherKind
deriving DecidableEq, Repr

/-- CompletionKind from CompletionData.h. -/
inductive CompletionKind where
  | STRUCT
  | CLASS
  | ENUM
  | TYPE
  | MEMBER
  | FUNCTION
  | VARIABLE
  | MACRODEF
  | PARAMETER
  | NAMESPACE
  | UNKNOWN
deriving DecidableEq, Repr

/-- CursorKindToCompletionKind from CompletionData.cpp. -/
def CursorKindToCompletionKind : CXCursorKind → CompletionKind
  | .StructDecl => .STRUCT
  | .ClassDecl => .CLASS
  | .ClassTemplate => .CLASS
  | .EnumDecl => .ENUM
  | .UnexposedDecl => .TYPE
  | .UnionDecl => .TYPE
  | .TypedefDecl => .TYPE
  | .FieldDecl => .MEMBER
  | .FunctionDecl => .FUNCTION
  | .CXXMethod => .FUNCTION
  | .FunctionTemplate => .FUNCTION
  | .ConversionFunction => .FUNCTION
  | .Constructor => .FUNCTION
  | .Destructor => .FUNCTION
  | .VarDecl => .VARIABLE
  | .MacroDefinition => .MACRODEF
  | .ParmDecl => .PARAMETER
  | .Namespace => .NAMESPACE
  | .NamespaceAlias => .NAMESPACE
  | .OtherKind => .UNKNOWN

/-- One completion chunk: a kind tag, the leaf text, and - only present for
Optional chunks that carry one - a nested chunk sequence (none models a null
nested CXCompletionString). -/
inductive Chunk where
  | mk (kind : CXCompletionChunkKind) (text : List Char)
       (children : Option (List Chunk))

def Chunk.kind : Chunk → CXCompletionChunkKind
  | .mk k _ _ => k

def Chunk.text : Chunk → List Char
  | .mk _ t _ => t

def Chunk.children : Chunk → Option (List Chunk)
  | .mk _ _ c => c

/-- IsMainCompletionTextInfo from CompletionData.cpp. -/
def IsMainCompletionTextInfo (kind : CXCompletionChunkKind) : Bool :=
  kind = .Optional ||
  kind = .TypedText ||
  kind = .Placeholder ||
  kind = .LeftParen ||
  kind = .RightParen ||
  kind = .RightBracket ||
  kind = .LeftBracket ||
  kind = .LeftBrace ||
  kind = .RightBrace ||
  kind = .RightAngle ||
  kind = .LeftAngle ||
  kind = .Comma ||
  kind = .Colon ||
  kind = .SemiColon ||
  kind = .Equal ||
  kind = .Informative ||
  kind = .HorizontalSpace

/-- ChunkToString from CompletionData.cpp: a Placeholder chunk is wrapped in
the given delimiters, every other chunk renders as its bare text. -/
def ChunkToString (c : Chunk)
    (opening_placeholder_delimiter : List Char := ['⟪'])
    (closing_placeholder_delimiter : List Char := ['⟫']) : List Char :=
  if c.kind = .Placeholder then
    opening_placeholder_delimiter ++ c.text ++ closing_placeholder_delimiter
  else
    c.text

mutual

/-- OptionalChunkToString from CompletionData.cpp: renders the nested chunk
sequence of an Optional chunk (empty when the nested sequence is null),
recursing into nested Optionals and using the bracket delimiter pair for
everything else. -/
def OptionalChunkToString : Chunk → List Char
  | .mk _ _ none => []
  | .mk _ _ (some cs) => optionalChunksToString cs

/-- Loop body of OptionalChunkToString over the nested chunk list. -/
def optionalChunksToString : List Chunk → List Char
  | [] => []
  | c :: rest =>
    (if c.kind = .Optional then OptionalChunkToString c
     else ChunkToString c ['⟦'] ['⟧']) ++ optionalChunksToString rest

end

/-- RemoveTwoConsecutiveUnderscores from CompletionData.cpp:
boost::erase_all( text, "__" ), i.e. left-to-right non-overlapping removal
of every occurrence of two consecutive underscores. -/
def RemoveTwoConsecutiveUnderscores : List Char → List Char
  | [] => []
  | [c] => [c]
  | c1 :: c2 :: rest =>
    if c1 = '_' ∧ c2 = '_' then RemoveTwoConsecutiveUnderscores rest
    else c1 :: RemoveTwoConsecutiveUnderscores (c2 :: rest)

/-- Erase every occurrence of the single character x (boost::erase_all with a
one-character pattern). -/
def removeChar (x : Char) (s : List Char) : List Char :=
  s.filter (fun c => c ≠ x)

/-- RemoveParameterMarkers from CompletionData.cpp: erase all four
placeholder-marker characters, in the order the code erases them. -/
def RemoveParameterMarkers (s : List Char) : List Char :=
  removeChar '⟧' (removeChar '⟦' (removeChar '⟫' (removeChar '⟪' s)))

/-- Whitespace class of the boost regex \s (default C locale). -/
def isSpaceChar (c : Char) : Bool :=
  c = ' ' || c = '\t' || c = '\n' || c = '\x0b' || c = '\x0c' || c = '\r'

/-- Word-constituent class of the boost regex \w : [A-Za-z0-9_]. -/
def isWordChar (c : Char) : Bool :=
  c.isAlpha || c.isDigit || c = '_'

/-- Recognise the alternation (?:const|volatile) at the head of the list,
returning the last character of the matched word and the remainder. -/
def qualWordSplit : List Char → Option (Char × List Char)
  | 'c' :: 'o' :: 'n' :: 's' :: 't' :: rest => some ('t', rest)
  | 'v' :: 'o' :: 'l' :: 'a' :: 't' :: 'i' :: 'l' :: 'e' :: rest =>
      some ('e', rest)
  | _ => none

/-- Character immediately preceding the word position after the leading
whitespace run: the last consumed whitespace character, or prev when no
whitespace is consumed. -/
def beforeChar (prev : Option Char) (s : List Char) : Option Char :=
  if (s.takeWhile isSpaceChar).isEmpty then prev
  else (s.takeWhile isSpaceChar).getLast?

/-- Word-start assertion \< of the regex: the position is preceded by
nothing or by a non-word character. -/
def wordStartOk : Option Char → Bool
  | none => true
  | some c => !isWordChar c

/-- Try to match the regex  \s*\<(?:const|volatile)\>\s*  at the start of s.
prev is the character immediately before s in the whole string (none at the
string start); it decides the word-start assertion when no leading whitespace
is consumed.  On success, returns the last consumed character (context for
later word-boundary checks) and the unconsumed remainder. -/
def tryMatchQual (prev : Option Char) (s : List Char) :
    Option (Char × List Char) :=
  if wordStartOk (beforeChar prev s) then
    match qualWordSplit (s.dropWhile isSpaceChar) with
    | none => none
    | some (wlast, t2) =>
      match t2 with
      | [] => some (wlast, [])
      | c :: _ =>
        if isWordChar c then none
        else
          some ((t2.takeWhile isSpaceChar).getLastD wlast,
                t2.dropWhile isSpaceChar)
  else none

/-- Global left-to-right replacement by the empty string: scan every position
of the original string; at a match, drop the matched region and continue
after it (boost::regex_replace never rescans emitted output).  Fuel-indexed
so the definition is structural; fuel at least the length of s suffices. -/
def stripQualAux : Nat → Option Char → List Char → List Char
  | 0, _, s => s
  | Nat.succ n, prev, s =>
    match tryMatchQual prev s with
    | some (lastc, rest) => stripQualAux n (some lastc) rest
    | none =>
      match s with
      | [] => []
      | c :: rest => c :: stripQualAux n (some c) rest

/-- boost::regex_replace( s, cv_re, "" ) with
cv_re = \s*\<(?:const|volatile)\>\s*  (CompletionData.cpp). -/
def StripQualifiers (s : List Char) : List Char :=
  stripQualAux s.length none s

/-- Mutable state threaded through ExtractDataFromChunk: the two
state-machine booleans (locals of the constructor loop) and the three string
accumulators (fields of CompletionData). -/
structure ExtractState where
  saw_left_paren : Bool
  saw_function_params : Bool
  call_string_ : List Char
  everything_except_return_type_ : List Char
  return_type_ : List Char
deriving DecidableEq, Repr

def initExtractState : ExtractState :=
  { saw_left_paren := false
    saw_function_params := false
    call_string_ := []
    everything_except_return_type_ := []
    return_type_ := [] }

/-- CompletionData::AppendExtraSpaceIfNeeded: append extra_space_ to
call_string_ and everything_except_return_type_ (and nothing else). -/
def AppendExtraSpaceIfNeeded (extra_space : List Char)
    (st : ExtractState) : ExtractState :=
  { st with
    call_string_ := st.call_string_ ++ extra_space
    everything_except_return_type_ :=
      st.everything_except_return_type_ ++ extra_space }

/-- CompletionData::ExtractDataFromChunk, with the static extra_space_ passed
explicitly and the by-reference state made an explicit fold state. -/
def ExtractDataFromChunk (extra_space : List Char)
    (st : ExtractState) (c : Chunk) : ExtractState :=
  let kind := c.kind
  let st1 :=
    if IsMainCompletionTextInfo kind then
      let st2 :=
        if kind = .LeftParen then
          { st with saw_left_paren := true }
        else if st.saw_left_paren ∧ ¬st.saw_function_params ∧
                kind ≠ .RightParen ∧ kind ≠ .Informative then
          AppendExtraSpaceIfNeeded extra_space
            { st with saw_function_params := true }
        else if st.saw_function_params ∧ kind = .RightParen then
          AppendExtraSpaceIfNeeded extra_space st
        else st
      if kind = .Optional then
        let chunk := OptionalChunkToString c
        { st2 with
          call_string_ := st2.call_string_ ++ chunk
          everything_except_return_type_ :=
            st2.everything_except_return_type_ ++ chunk }
      else
        let chunk := ChunkToString c
        { st2 with
          call_string_ := st2.call_string_ ++
            (if kind ≠ .Informative then chunk else [])
          everything_except_return_type_ :=
            st2.everything_except_return_type_ ++ chunk }
    else st
  if kind = .ResultType then
    { st1 with return_type_ := ChunkToString c }
  else st1

/-- The record CompletionData assembles; kind_ is Option-valued because the
default constructor leaves the enum field uninitialised (none models the
unassigned field of a default-constructed record). -/
structure CompletionData where
  kind_ : Option CompletionKind
  everything_except_return_type_ : List Char
  doc_string_ : List Char
  call_string_ : List Char
  key_string_ : List Char
  brief_ : List Char
  detailed_info_ : List Char
  return_type_ : List Char
deriving DecidableEq, Repr

/-- Default-constructed CompletionData: empty strings, kind_ unassigned. -/
def CompletionData.defaultData : CompletionData :=
  { kind_ := none
    everything_except_return_type_ := []
    doc_string_ := []
    call_string_ := []
    key_string_ := []
    brief_ := []
    detailed_info_ := []
    return_type_ := [] }

/-- Post-loop tail of the CompletionData constructor: the strip passes over
the accumulated strings, the kind lookup, the brief/doc accessors and the
assembly of detailed_info_. -/
def CompletionData.assemble (cursor_kind : CXCursorKind)
    (brief_comment : List Char) (st : ExtractState) : CompletionData :=
  let ever := RemoveParameterMarkers
    (RemoveTwoConsecutiveUnderscores st.everything_except_return_type_)
  let call := RemoveTwoConsecutiveUnderscores st.call_string_
  let key := StripQualifiers (RemoveParameterMarkers call)
  let detailed :=
    (if brief_comment.isEmpty then [] else brief_comment ++ ['\n']) ++
    st.return_type_ ++ [' '] ++ ever ++ ['\n']
  { kind_ := some (CursorKindToCompletionKind cursor_kind)
    everything_except_return_type_ := ever
    doc_string_ := brief_comment
    call_string_ := call
    key_string_ := key
    brief_ := brief_comment
    detailed_info_ := detailed
    return_type_ := st.return_type_ }

/-- CompletionData::CompletionData( const CXCompletionResult & ):
completion_string is the (possibly null) chunk sequence, cursor_kind the
result's CursorKind, brief_comment the string the two
clang_getCompletionBriefComment calls return. -/
def CompletionData.build (extra_space : List Char)
    (completion_string : Option (List Chunk))
    (cursor_kind : CXCursorKind)
    (brief_comment : List Char) : CompletionData :=
  match completion_string with
  | none => CompletionData.defaultData
  | some chunks =>
    CompletionData.assemble cursor_kind brief_comment
      (chunks.foldl (ExtractDataFromChunk extra_space) initExtractState)

/-- CompletionData::operator== from CompletionData.h: compares kind_,
everything_except_return_type_ and return_type_ only. -/
def CompletionData.ceq (a b : CompletionData) : Bool :=
  a.kind_ = b.kind_ ∧
  a.everything_except_return_type_ = b.everything_except_return_type_ ∧
  a.return_type_ = b.return_type_

/-- Deciding whether s contains w as a whitespace-independent whole word: some
split s = a ++ w ++ b where a does not end in a word character and b does not
start with one.  This follows the spec wording for a "standalone const or
volatile token"; it is used only to state claims about StripQualifiers. -/
def listStartsWith : List Char → List Char → Bool
  | [], _ => true
  | _ :: _, [] => false
  | a :: as, b :: bs => a = b && listStartsWith as bs

def hasStandaloneWordAux (w : List Char) : Option Char → List Char → Bool
  | _, [] => false
  | prev, c :: rest =>
    (listStartsWith w (c :: rest) &&
      (match prev with
       | none => true
       | some pc => !isWordChar pc) &&
      (match (c :: rest).drop w.length with
       | [] => true
       | d :: _ => !isWordChar d)) ||
    hasStandaloneWordAux w (some c) rest

def hasStandaloneWord (w s : List Char) : Bool :=
  hasStandaloneWordAux w none s

namespace SpecProofs

theorem mem_removeChar {x y : Char} {s : List Char} :
    x ∈ removeChar y s ↔ x ∈ s ∧ x ≠ y := by
  simp [removeChar, List.mem_filter]

theorem removeChar_eq_self {y : Char} {s : List Char} (h : y ∉ s) :
    removeChar y s = s := by
  apply List.filter_eq_self.mpr
  intro a ha
  simp only [decide_eq_true_eq]
  intro hay
  exact h (hay ▸ ha)

theorem mem_RemoveParameterMarkers {x : Char} {s : List Char} :
    x ∈ RemoveParameterMarkers s ↔
      x ∈ s ∧ x ≠ '⟪' ∧ x ≠ '⟫' ∧ x ≠ '⟦' ∧ x ≠ '⟧' := by
  simp only [RemoveParameterMarkers, mem_removeChar]
  tauto

theorem RemoveParameterMarkers_eq_self {s : List Char}
    (h : '⟪' ∉ s ∧ '⟫' ∉ s ∧ '⟦' ∉ s ∧ '⟧' ∉ s) :
    RemoveParameterMarkers s = s := by
  obtain ⟨h1, h2, h3, h4⟩ := h
  unfold RemoveParameterMarkers
  rw [removeChar_eq_self h1]
  rw [removeChar_eq_self h2]
  rw [removeChar_eq_self h3]
  rw [removeChar_eq_self h4]

theorem markers_not_mem_RemoveParameterMarkers (s : List Char) :
    '⟪' ∉ RemoveParameterMarkers s ∧ '⟫' ∉ RemoveParameterMarkers s ∧
    '⟦' ∉ RemoveParameterMarkers s ∧ '⟧' ∉ RemoveParameterMarkers s := by
  refine ⟨?_, ?_, ?_, ?_⟩ <;>
    { intro h; rcases mem_RemoveParameterMarkers.mp h with ⟨-, h⟩; tauto }

theorem mem_of_mem_dropWhile {p : Char → Bool} {x : Char} :
    ∀ {s : List Char}, x ∈ s.dropWhile p → x ∈ s := by
  intro s
  induction s with
  | nil => simp
  | cons c rest ih =>
    intro hx
    by_cases h : p c
    · simp only [List.dropWhile_cons, h, if_true] at hx
      exact List.mem_cons_of_mem c (ih hx)
    · simpa [List.dropWhile_cons, h] using hx

theorem qualWordSplit_sub {t1 t2 : List Char} {w : Char}
    (h : qualWordSplit t1 = some (w, t2)) : ∀ x, x ∈ t2 → x ∈ t1 := by
  unfold qualWordSplit at h
  split at h <;> simp_all

theorem tryMatchQual_sub {prev : Option Char} {s rest : List Char} {c : Char}
    (h : tryMatchQual prev s = some (c, rest)) : ∀ x, x ∈ rest → x ∈ s := by
  unfold tryMatchQual at h
  split at h
  · cases hq : qualWordSplit (s.dropWhile isSpaceChar) with
    | none => simp only [hq] at h; cases h
    | some wt =>
      obtain ⟨wlast, t2⟩ := wt
      simp only [hq] at h
      cases t2 with
      | nil =>
        cases h
        intro x hx
        cases hx
      | cons d t2tail =>
        dsimp only at h
        by_cases hw : isWordChar d
        · rw [if_pos hw] at h; cases h
        · rw [if_neg hw] at h
          cases h
          intro x hx
          exact mem_of_mem_dropWhile
            (qualWordSplit_sub hq x (mem_of_mem_dropWhile hx))
  · cases h

theorem mem_stripQualAux {x : Char} :
    ∀ (n : Nat) (prev : Option Char) (s : List Char),
      x ∈ stripQualAux n prev s → x ∈ s := by
  intro n
  induction n with
  | zero => intro prev s h; simpa [stripQualAux] using h
  | succ n ih =>
    intro prev s h
    unfold stripQualAux at h
    split at h
    · rename_i lastc rest hm
      exact tryMatchQual_sub hm x (ih _ _ h)
    · match s, h with
      | c :: rest, h =>
        rcases List.mem_cons.mp h with h | h
        · exact h ▸ List.mem_cons_self c rest
        · exact List.mem_cons_of_mem c (ih _ _ h)

theorem mem_StripQualifiers {x : Char} {s : List Char}
    (h : x ∈ StripQualifiers s) : x ∈ s :=
  mem_stripQualAux s.length none s h

theorem count_RemoveTwoConsecutiveUnderscores {x : Char} (hx : x ≠ '_') :
    ∀ s : List Char,
      (RemoveTwoConsecutiveUnderscores s).count x = s.count x := by
  have key : ∀ (n : Nat) (s : List Char), s.length ≤ n →
      (RemoveTwoConsecutiveUnderscores s).count x = s.count x := by
    intro n
    induction n with
    | zero =>
      intro s hs
      have : s = [] := List.eq_nil_of_length_eq_zero (Nat.le_zero.mp hs)
      subst this
      rfl
    | succ n ih =>
      intro s hs
      match s with
      | [] => rfl
      | [c] => rfl
      | c1 :: c2 :: rest =>
        unfold RemoveTwoConsecutiveUnderscores
        by_cases h12 : c1 = '_' ∧ c2 = '_'
        · rw [if_pos h12]
          rw [ih rest (by simp at hs; omega)]
          obtain ⟨e1, e2⟩ := h12
          subst e1; subst e2
          simp [List.count_cons, hx]
        · rw [if_neg h12]
          rw [List.count_cons, List.count_cons,
            ih (c2 :: rest) (by simp at hs ⊢; omega), List.count_cons]
  exact fun s => key s.length s le_rfl

theorem build_some_ever (es : List Char) (cs : List Chunk)
    (ck : CXCursorKind) (br : List Char) :
    (CompletionData.build es (some cs) ck br).everything_except_return_type_ =
      RemoveParameterMarkers (RemoveTwoConsecutiveUnderscores
        ((cs.foldl (ExtractDataFromChunk es)
          initExtractState).everything_except_return_type_)) := rfl

theorem build_some_call (es : List Char) (cs : List Chunk)
    (ck : CXCursorKind) (br : List Char) :
    (CompletionData.build es (some cs) ck br).call_string_ =
      RemoveTwoConsecutiveUnderscores
        ((cs.foldl (ExtractDataFromChunk es) initExtractState).call_string_) :=
  rfl

theorem build_some_key (es : List Char) (cs : List Chunk)
    (ck : CXCursorKind) (br : List Char) :
    (CompletionData.build es (some cs) ck br).key_string_ =
      StripQualifiers (RemoveParameterMarkers
        ((CompletionData.build es (some cs) ck br).call_string_)) := rfl

theorem extract_informative_eq (es : List Char) (st : ExtractState)
    (t : List Char) (ch : Option (List Chunk)) :
    ExtractDataFromChunk es st (Chunk.mk .Informative t ch) =
      { st with everything_except_return_type_ :=
          st.everything_except_return_type_ ++ t } := by
  simp [ExtractDataFromChunk, Chunk.kind, Chunk.text, IsMainCompletionTextInfo,
    ChunkToString]

theorem extract_optional_eq (es : List Char) (st : ExtractState)
    (t : List Char) (cs : List Chunk) (h : st.saw_left_paren = false) :
    ExtractDataFromChunk es st (Chunk.mk .Optional t (some cs)) =
      { st with
        call_string_ := st.call_string_ ++ optionalChunksToString cs
        everything_except_return_type_ :=
          st.everything_except_return_type_ ++ optionalChunksToString cs } := by
  simp [ExtractDataFromChunk, Chunk.kind, IsMainCompletionTextInfo,
    OptionalChunkToString, h]

theorem extract_resultType_eq (es : List Char) (st : ExtractState)
    (t : List Char) (ch : Option (List Chunk)) :
    ExtractDataFromChunk es st (Chunk.mk .ResultType t ch) =
      { st with return_type_ := t } := by
  simp [ExtractDataFromChunk, Chunk.kind, Chunk.text, IsMainCompletionTextInfo,
    ChunkToString]

theorem extract_other_eq (es : List Char) (st : ExtractState)
    (t : List Char) (ch : Option (List Chunk)) :
    ExtractDataFromChunk es st (Chunk.mk .Other t ch) = st := by
  simp [ExtractDataFromChunk, Chunk.kind, IsMainCompletionTextInfo]

theorem extract_placeholder_eq (es : List Char) (st : ExtractState)
    (t : List Char) (ch : Option (List Chunk)) :
    ExtractDataFromChunk es st (Chunk.mk .Placeholder t ch) =
      { st with
        saw_function_params := st.saw_function_params || st.saw_left_paren
        call_string_ := st.call_string_ ++
          (if st.saw_left_paren = true ∧ st.saw_function_params = false
           then es else []) ++ ('⟪' :: (t ++ ['⟫']))
        everything_except_return_type_ :=
          st.everything_except_return_type_ ++
          (if st.saw_left_paren = true ∧ st.saw_function_params = false
           then es else []) ++ ('⟪' :: (t ++ ['⟫'])) } := by
  cases hsl : st.saw_left_paren <;> cases hsf : st.saw_function_params <;>
    simp [ExtractDataFromChunk, AppendExtraSpaceIfNeeded, Chunk.kind,
      Chunk.text, IsMainCompletionTextInfo, ChunkToString, hsl, hsf,
      List.append_assoc]

/-- Equality of the three string accumulators of two extract states (the two
state-machine booleans are allowed to differ). -/
def stringsEq (a b : ExtractState) : Prop :=
  a.call_string_ = b.call_string_ ∧
  a.everything_except_return_type_ = b.everything_except_return_type_ ∧
  a.return_type_ = b.return_type_

theorem step_nil_congr {a b : ExtractState} (h : stringsEq a b) (c : Chunk) :
    stringsEq (ExtractDataFromChunk [] a c) (ExtractDataFromChunk [] b c) := by
  obtain ⟨h1, h2, h3⟩ := h
  unfold stringsEq ExtractDataFromChunk AppendExtraSpaceIfNeeded
  dsimp only
  split_ifs <;> simp_all

theorem foldl_nil_congr {a b : ExtractState} (h : stringsEq a b)
    (l : List Chunk) :
    stringsEq (l.foldl (ExtractDataFromChunk []) a)
      (l.foldl (ExtractDataFromChunk []) b) := by
  induction l generalizing a b with
  | nil => exact h
  | cons c rest ih => exact ih (step_nil_congr h c)

theorem step_nil_optNone (st : ExtractState) (t : List Char) :
    stringsEq (ExtractDataFromChunk [] st (Chunk.mk .Optional t none)) st := by
  unfold stringsEq ExtractDataFromChunk AppendExtraSpaceIfNeeded
    OptionalChunkToString
  dsimp only
  split_ifs <;> simp_all [Chunk.kind, IsMainCompletionTextInfo]

theorem assemble_congr {s1 s2 : ExtractState} (h : stringsEq s1 s2)
    (ck : CXCursorKind) (br : List Char) :
    CompletionData.assemble ck br s1 = CompletionData.assemble ck br s2 := by
  obtain ⟨h1, h2, h3⟩ := h
  simp [CompletionData.assemble, h1, h2, h3]

end SpecProofs

/-- p is rendered inside parent by OptionalChunkToString: p is a direct
element of parent's nested sequence, or is reachable through an
Optional-kind element of it (the recursion of OptionalChunkToString). -/
inductive RenderedInOptional : Chunk → Chunk → Prop where
  | direct {p : Chunk} {k : CXCompletionChunkKind} {t : List Char}
      {cs : List Chunk} (hmem : p ∈ cs) :
      RenderedInOptional p (Chunk.mk k t (some cs))
  | nested {p q : Chunk} {k : CXCompletionChunkKind} {t : List Char}
      {cs : List Chunk} (hmem : q ∈ cs) (hq : q.kind = .Optional)
      (hrec : RenderedInOptional p q) :
      RenderedInOptional p (Chunk.mk k t (some cs))

namespace SpecProofs

theorem infix_extend_left {a r : List Char} (x : List Char)
    (h : a <:+: r) : a <:+: x ++ r := by
  obtain ⟨s, t, hst⟩ := h
  exact ⟨x ++ s, t, by rw [← hst]; simp⟩

theorem infix_trans {a b c : List Char} (h1 : a <:+: b) (h2 : b <:+: c) :
    a <:+: c := by
  obtain ⟨s, t, hst⟩ := h1
  obtain ⟨u, v, huv⟩ := h2
  exact ⟨u ++ s, t ++ v, by rw [← huv, ← hst]; simp⟩

theorem piece_infix {p : Chunk} {cs : List Chunk} (h : p ∈ cs) :
    (if p.kind = .Optional then OptionalChunkToString p
     else ChunkToString p ['⟦'] ['⟧']) <:+: optionalChunksToString cs := by
  induction cs with
  | nil => cases h
  | cons c rest ih =>
    rcases List.mem_cons.mp h with h | h
    · subst h
      exact ⟨[], optionalChunksToString rest, by
        simp [optionalChunksToString]⟩
    · have := infix_extend_left
        (if c.kind = .Optional then OptionalChunkToString c
         else ChunkToString c ['⟦'] ['⟧']) (ih h)
      simpa [optionalChunksToString] using this

theorem rendered_placeholder_infix {p parent : Chunk}
    (h : RenderedInOptional p parent) (hp : p.kind = .Placeholder) :
    ('⟦' :: (p.text ++ ['⟧'])) <:+: OptionalChunkToString parent := by
  induction h with
  | direct hmem =>
    have hpi := piece_infix hmem
    rw [if_neg (by simp [hp])] at hpi
    rw [ChunkToString, if_pos hp] at hpi
    simpa [OptionalChunkToString] using hpi
  | nested hmem hq hrec ih =>
    have hpi := piece_infix hmem
    rw [if_pos hq] at hpi
    have := infix_trans ih hpi
    simpa [OptionalChunkToString] using this

end SpecProofs

/-- C1 (amended): a null chunk sequence yields the default-constructed record
(all string fields empty, category field left unassigned); an empty chunk
sequence yields empty insertText, mainText, returnType and keyText, brief and
docString equal to the engine's brief comment, category = CategoryOf(declKind),
and detailedInfo equal to the brief prefix followed by the two characters
space and newline (so detailedInfo is never the empty string). -/
theorem c1_degenerate_build (extra_space : List Char) (ck : CXCursorKind)
    (br : List Char) :
    CompletionData.build extra_space none ck br = CompletionData.defaultData ∧
    CompletionData.build extra_space (some []) ck br =
      { kind_ := some (CursorKindToCompletionKind ck)
        everything_except_return_type_ := []
        doc_string_ := br
        call_string_ := []
        key_string_ := []
        brief_ := br
        detailed_info_ :=
          (if br.isEmpty then [] else br ++ ['\n']) ++ [' ', '\n']
        return_type_ := [] } := by
  constructor
  · rfl
  · simp [CompletionData.build, CompletionData.assemble, initExtractState,
      RemoveTwoConsecutiveUnderscores, RemoveParameterMarkers, removeChar,
      StripQualifiers, stripQualAux]

/-- C1 counterexample: for the empty (non-null) chunk sequence with an
otherwise-empty candidate, detailedInfo is the non-empty string of a space
and a newline, and for a struct declaration kind the category is Struct, not
Unknown - refuting the claim that all string fields are empty and the
category is Unknown. -/
theorem c1_counterexample :
    (CompletionData.build [] (some []) .StructDecl []).detailed_info_ =
      [' ', '\n'] ∧
    [' ', '\n'] ≠ ([] : List Char) ∧
    (CompletionData.build [] (some []) .StructDecl []).kind_ =
      some CompletionKind.STRUCT ∧
    some CompletionKind.STRUCT ≠ some CompletionKind.UNKNOWN := by
  exact ⟨by decide, by decide, by decide, by decide⟩

/-- C2 (amended): a top-level Informative chunk appends its text to mainText
only (callString, the flags and returnType are untouched), but an Optional
chunk appends its whole rendered nested sequence - Informative descendants
included - to both callString and mainText. -/
theorem c2_informative_appending :
    (∀ (extra_space : List Char) (st : ExtractState) (t : List Char)
        (ch : Option (List Chunk)),
      ExtractDataFromChunk extra_space st (Chunk.mk .Informative t ch) =
        { st with everything_except_return_type_ :=
            st.everything_except_return_type_ ++ t }) ∧
    (∀ (extra_space : List Char) (st : ExtractState) (t : List Char)
        (cs : List Chunk),
      st.saw_left_paren = false →
      ExtractDataFromChunk extra_space st (Chunk.mk .Optional t (some cs)) =
        { st with
          call_string_ := st.call_string_ ++ optionalChunksToString cs
          everything_except_return_type_ :=
            st.everything_except_return_type_ ++
              optionalChunksToString cs }) :=
  ⟨SpecProofs.extract_informative_eq, SpecProofs.extract_optional_eq⟩

/-- C2 witness: the amended theorem applied to a concrete Optional chunk
holding one Informative child. -/
theorem c2_witness :
    ExtractDataFromChunk [] initExtractState
      (Chunk.mk .Optional []
        (some [Chunk.mk .Informative "hint".data none])) =
    { initExtractState with
      call_string_ :=
        optionalChunksToString [Chunk.mk .Informative "hint".data none]
      everything_except_return_type_ :=
        optionalChunksToString [Chunk.mk .Informative "hint".data none] } := by
  have h := c2_informative_appending.2 [] initExtractState []
    [Chunk.mk .Informative "hint".data none] (by decide)
  simpa [initExtractState] using h

/-- C2 counterexample: an Informative chunk nested inside an Optional chunk
does land in callString (insertText): the only text in this candidate comes
from the Informative descendant, yet callString is "hint", not empty -
refuting "never appended to callString ... including descendants of an
Optional chunk". -/
theorem c2_counterexample :
    (CompletionData.build []
      (some [Chunk.mk .Optional []
        (some [Chunk.mk .Informative "hint".data none])])
      .OtherKind []).call_string_ = "hint".data ∧
    "hint".data ≠ ([] : List Char) := by
  exact ⟨by decide, by decide⟩

/-- C3 (confirmed): for every input - any chunk sequence (or null), any chunk
texts, any spacing string, any cursor kind and brief comment - the built
mainText contains none of the four placeholder-marker characters, and
re-applying StripPlaceholderMarkers (RemoveParameterMarkers) to it leaves it
unchanged. -/
theorem c3_mainText_marker_free (extra_space : List Char)
    (ocs : Option (List Chunk)) (ck : CXCursorKind) (br : List Char) :
    ('⟪' ∉ (CompletionData.build extra_space ocs ck br).everything_except_return_type_ ∧
     '⟫' ∉ (CompletionData.build extra_space ocs ck br).everything_except_return_type_ ∧
     '⟦' ∉ (CompletionData.build extra_space ocs ck br).everything_except_return_type_ ∧
     '⟧' ∉ (CompletionData.build extra_space ocs ck br).everything_except_return_type_) ∧
    RemoveParameterMarkers
      ((CompletionData.build extra_space ocs ck br).everything_except_return_type_) =
      (CompletionData.build extra_space ocs ck br).everything_except_return_type_ := by
  cases ocs with
  | none =>
    refine ⟨⟨?_, ?_, ?_, ?_⟩, rfl⟩ <;>
      simp [CompletionData.build, CompletionData.defaultData]
  | some cs =>
    rw [SpecProofs.build_some_ever]
    constructor
    · exact SpecProofs.markers_not_mem_RemoveParameterMarkers _
    · exact SpecProofs.RemoveParameterMarkers_eq_self
        (SpecProofs.markers_not_mem_RemoveParameterMarkers _)

/-- C4 (confirmed): with the spacing flag disabled the sequence
TypedText foo, LeftParen, TypedText int-x, RightParen yields mainText
"foo(int x)"; with the flag enabled it yields "foo( int x )"; and the
empty-parameter sequence TypedText foo, LeftParen, RightParen yields
"foo()" under both flag settings. -/
theorem c4_spacing_examples :
    (CompletionData.build []
      (some [Chunk.mk .TypedText "foo".data none,
             Chunk.mk .LeftParen "(".data none,
             Chunk.mk .TypedText "int x".data none,
             Chunk.mk .RightParen ")".data none])
      .FunctionDecl []).everything_except_return_type_ = "foo(int x)".data ∧
    (CompletionData.build " ".data
      (some [Chunk.mk .TypedText "foo".data none,
             Chunk.mk .LeftParen "(".data none,
             Chunk.mk .TypedText "int x".data none,
             Chunk.mk .RightParen ")".data none])
      .FunctionDecl []).everything_except_return_type_ = "foo( int x )".data ∧
    (CompletionData.build []
      (some [Chunk.mk .TypedText "foo".data none,
             Chunk.mk .LeftParen "(".data none,
             Chunk.mk .RightParen ")".data none])
      .FunctionDecl []).everything_except_return_type_ = "foo()".data ∧
    (CompletionData.build " ".data
      (some [Chunk.mk .TypedText "foo".data none,
             Chunk.mk .LeftParen "(".data none,
             Chunk.mk .RightParen ")".data none])
      .FunctionDecl []).everything_except_return_type_ = "foo()".data := by
  exact ⟨by decide, by decide, by decide, by decide⟩

/-- C5 (amended): keyText is exactly StripQualifiers applied to the
marker-stripped callString, keyText contains no placeholder-marker
characters, and callString retains every placeholder marker the chunk scan
accumulated (the underscore pass deletes only underscores, so marker counts
are preserved); however a single left-to-right replacement pass can splice
the text surrounding a removed qualifier into a new standalone const or
volatile token, so keyText is not guaranteed to be free of such tokens. -/
theorem c5_keyText (extra_space : List Char) (cs : List Chunk)
    (ck : CXCursorKind) (br : List Char) :
    (CompletionData.build extra_space (some cs) ck br).key_string_ =
      StripQualifiers (RemoveParameterMarkers
        ((CompletionData.build extra_space (some cs) ck br).call_string_)) ∧
    ('⟪' ∉ (CompletionData.build extra_space (some cs) ck br).key_string_ ∧
     '⟫' ∉ (CompletionData.build extra_space (some cs) ck br).key_string_ ∧
     '⟦' ∉ (CompletionData.build extra_space (some cs) ck br).key_string_ ∧
     '⟧' ∉ (CompletionData.build extra_space (some cs) ck br).key_string_) ∧
    (((CompletionData.build extra_space (some cs) ck br).call_string_).count '⟪' =
        ((cs.foldl (ExtractDataFromChunk extra_space)
          initExtractState).call_string_).count '⟪' ∧
     ((CompletionData.build extra_space (some cs) ck br).call_string_).count '⟫' =
        ((cs.foldl (ExtractDataFromChunk extra_space)
          initExtractState).call_string_).count '⟫' ∧
     ((CompletionData.build extra_space (some cs) ck br).call_string_).count '⟦' =
        ((cs.foldl (ExtractDataFromChunk extra_space)
          initExtractState).call_string_).count '⟦' ∧
     ((CompletionData.build extra_space (some cs) ck br).call_string_).count '⟧' =
        ((cs.foldl (ExtractDataFromChunk extra_space)
          initExtractState).call_string_).count '⟧') := by
  refine ⟨rfl, ⟨?_, ?_, ?_, ?_⟩, ?_, ?_, ?_, ?_⟩
  · intro hm
    exact ((SpecProofs.mem_RemoveParameterMarkers.mp
      (SpecProofs.mem_StripQualifiers
        (SpecProofs.build_some_key extra_space cs ck br ▸ hm))).2.1) rfl
  · intro hm
    exact ((SpecProofs.mem_RemoveParameterMarkers.mp
      (SpecProofs.mem_StripQualifiers
        (SpecProofs.build_some_key extra_space cs ck br ▸ hm))).2.2.1) rfl
  · intro hm
    exact ((SpecProofs.mem_RemoveParameterMarkers.mp
      (SpecProofs.mem_StripQualifiers
        (SpecProofs.build_some_key extra_space cs ck br ▸ hm))).2.2.2.1) rfl
  · intro hm
    exact ((SpecProofs.mem_RemoveParameterMarkers.mp
      (SpecProofs.mem_StripQualifiers
        (SpecProofs.build_some_key extra_space cs ck br ▸ hm))).2.2.2.2) rfl
  · rw [SpecProofs.build_some_call]
    exact SpecProofs.count_RemoveTwoConsecutiveUnderscores (by decide) _
  · rw [SpecProofs.build_some_call]
    exact SpecProofs.count_RemoveTwoConsecutiveUnderscores (by decide) _
  · rw [SpecProofs.build_some_call]
    exact SpecProofs.count_RemoveTwoConsecutiveUnderscores (by decide) _
  · rw [SpecProofs.build_some_call]
    exact SpecProofs.count_RemoveTwoConsecutiveUnderscores (by decide) _

/-- C5 counterexample: for the single chunk TypedText "con const st", the
single regex pass deletes " const " and splices the remaining text into the
word "const": keyText is exactly the standalone token const, refuting the
claim that keyText contains no standalone const or volatile tokens. -/
theorem c5_counterexample :
    (CompletionData.build []
      (some [Chunk.mk .TypedText "con const st".data none])
      .OtherKind []).key_string_ = "const".data ∧
    hasStandaloneWord "const".data
      ((CompletionData.build []
        (some [Chunk.mk .TypedText "con const st".data none])
        .OtherKind []).key_string_) = true := by
  exact ⟨by decide, by decide⟩

/-- C6 (confirmed): every Placeholder chunk rendered through an Optional
chunk - at any nesting depth of the OptionalChunkToString recursion - appears
in the rendering wrapped in the bracket delimiters, a Placeholder chunk is
rendered with the default (angle) delimiters exactly as the angle-wrapped
text, and the chunk scan appends that angle-wrapped text (after the possible
spacing token) to both accumulators for a top-level Placeholder chunk. -/
theorem c6_placeholder_delimiters :
    (∀ (parent p : Chunk), RenderedInOptional p parent →
      p.kind = .Placeholder →
      ('⟦' :: (p.text ++ ['⟧'])) <:+: OptionalChunkToString parent) ∧
    (∀ p : Chunk, p.kind = .Placeholder →
      ChunkToString p = '⟪' :: (p.text ++ ['⟫'])) ∧
    (∀ (extra_space : List Char) (st : ExtractState) (t : List Char)
        (ch : Option (List Chunk)),
      ExtractDataFromChunk extra_space st (Chunk.mk .Placeholder t ch) =
        { st with
          saw_function_params := st.saw_function_params || st.saw_left_paren
          call_string_ := st.call_string_ ++
            (if st.saw_left_paren = true ∧ st.saw_function_params = false
             then extra_space else []) ++ ('⟪' :: (t ++ ['⟫']))
          everything_except_return_type_ :=
            st.everything_except_return_type_ ++
            (if st.saw_left_paren = true ∧ st.saw_function_params = false
             then extra_space else []) ++ ('⟪' :: (t ++ ['⟫'])) }) := by
  refine ⟨?_, ?_, SpecProofs.extract_placeholder_eq⟩
  · intro parent p h hp
    exact SpecProofs.rendered_placeholder_infix h hp
  · intro p hp
    simp [ChunkToString, hp]

/-- C6 witness: the delimiters theorem applied to a concrete Optional chunk
with one Placeholder child. -/
theorem c6_witness :
    ('⟦' :: ("x".data ++ ['⟧'])) <:+:
      OptionalChunkToString
        (Chunk.mk .Optional []
          (some [Chunk.mk .Placeholder "x".data none])) :=
  c6_placeholder_delimiters.1
    (Chunk.mk .Optional [] (some [Chunk.mk .Placeholder "x".data none]))
    (Chunk.mk .Placeholder "x".data none)
    (RenderedInOptional.direct (by simp)) (by decide)

/-- C7 (amended): a chunk whose kind is outside the set the code inspects is
a true no-op (the record is identical to the one built without it), and with
the spacing flag disabled an Optional chunk with no nested sequence is also
output-invisible; but with the spacing flag enabled such a malformed Optional
chunk still drives the paren state machine, so it can change the built record
(it is not discarded, and neither is the rest of the candidate). -/
theorem c7_malformed_chunks :
    (∀ (extra_space : List Char) (ck : CXCursorKind) (br t : List Char)
        (ch : Option (List Chunk)) (l1 l2 : List Chunk),
      CompletionData.build extra_space
          (some (l1 ++ Chunk.mk .Other t ch :: l2)) ck br =
        CompletionData.build extra_space (some (l1 ++ l2)) ck br) ∧
    (∀ (ck : CXCursorKind) (br t : List Char) (l1 l2 : List Chunk),
      CompletionData.build []
          (some (l1 ++ Chunk.mk .Optional t none :: l2)) ck br =
        CompletionData.build [] (some (l1 ++ l2)) ck br) := by
  constructor
  · intro extra_space ck br t ch l1 l2
    simp [CompletionData.build, List.foldl_append,
      SpecProofs.extract_other_eq]
  · intro ck br t l1 l2
    simp only [CompletionData.build, List.foldl_append, List.foldl_cons]
    exact SpecProofs.assemble_congr
      (SpecProofs.foldl_nil_congr
        (SpecProofs.step_nil_optNone
          (l1.foldl (ExtractDataFromChunk []) initExtractState) t) l2) ck br

/-- C7 counterexample: with spacing enabled, inserting an Optional chunk with
no nested sequence between a left and right paren changes the built record
(mainText becomes paren-space-space-paren instead of the empty pair),
refuting the claim that a malformed chunk is treated as a no-op. -/
theorem c7_counterexample :
    CompletionData.build " ".data
        (some [Chunk.mk .LeftParen "(".data none,
               Chunk.mk .Optional [] none,
               Chunk.mk .RightParen ")".data none]) .OtherKind [] ≠
      CompletionData.build " ".data
        (some [Chunk.mk .LeftParen "(".data none,
               Chunk.mk .RightParen ")".data none]) .OtherKind [] := by
  decide

/-- C8 (confirmed): operator== holds between two records exactly when their
category (kind), mainText and returnType fields are equal; the other fields
never influence it. -/
theorem c8_record_equivalence (a b : CompletionData) :
    CompletionData.ceq a b = true ↔
      (a.kind_ = b.kind_ ∧
       a.everything_except_return_type_ = b.everything_except_return_type_ ∧
       a.return_type_ = b.return_type_) := by
  simp [CompletionData.ceq]

/-- C9 (confirmed): a ResultType chunk overwrites returnType with its text
and leaves both accumulators and the flags untouched; the built detailedInfo
is the brief prefix (brief plus newline when brief is non-empty, nothing
otherwise) followed by returnType, a space, mainText and a newline; and the
concrete candidate ResultType int, TypedText foo with empty brief yields
returnType int and detailedInfo exactly the string int-space-foo-newline. -/
theorem c9_result_type_and_detailed_info :
    (∀ (extra_space : List Char) (st : ExtractState) (t : List Char)
        (ch : Option (List Chunk)),
      ExtractDataFromChunk extra_space st (Chunk.mk .ResultType t ch) =
        { st with return_type_ := t }) ∧
    (∀ (extra_space : List Char) (cs : List Chunk) (ck : CXCursorKind)
        (br : List Char),
      (CompletionData.build extra_space (some cs) ck br).detailed_info_ =
        (if (CompletionData.build extra_space (some cs) ck br).brief_.isEmpty
         then []
         else (CompletionData.build extra_space (some cs) ck br).brief_ ++
           ['\n']) ++
        (CompletionData.build extra_space (some cs) ck br).return_type_ ++
        [' '] ++
        (CompletionData.build extra_space
          (some cs) ck br).everything_except_return_type_ ++ ['\n']) ∧
    ((CompletionData.build []
        (some [Chunk.mk .ResultType "int".data none,
               Chunk.mk .TypedText "foo".data none])
        .FunctionDecl []).return_type_ = "int".data ∧
     (CompletionData.build []
        (some [Chunk.mk .ResultType "int".data none,
               Chunk.mk .TypedText "foo".data none])
        .FunctionDecl []).detailed_info_ = "int foo\n".data) := by
  refine ⟨SpecProofs.extract_resultType_eq, ?_, by decide, by decide⟩
  intro extra_space cs ck br
  simp [CompletionData.build, CompletionData.assemble]

/-- C10 (confirmed): the spacing emission appends extra_space_ to both
accumulators - callString and everythingExceptReturnType - and touches no
other field; with spacing enabled, the inserted text of a non-empty
parameter list therefore carries the extra spaces too. -/
theorem c10_extra_space_frame :
    (∀ (extra_space : List Char) (st : ExtractState),
      AppendExtraSpaceIfNeeded extra_space st =
        { st with
          call_string_ := st.call_string_ ++ extra_space
          everything_except_return_type_ :=
            st.everything_except_return_type_ ++ extra_space }) ∧
    (CompletionData.build " ".data
      (some [Chunk.mk .TypedText "foo".data none,
             Chunk.mk .LeftParen "(".data none,
             Chunk.mk .TypedText "int x".data none,
             Chunk.mk .RightParen ")".data none])
      .FunctionDecl []).call_string_ = "foo( int x )".data := by
  exact ⟨fun _ _ => rfl, by decide⟩
